import Mathlib

/-!
# Verification of the jsPDF++ rendering engine (`src/unnamed/part_000`)

Shallow embedding of the layout/composition engine of the repository:

* unit conversion helpers `px`, `pt`, `lineHeight` (source lines 20-34),
* the inline markup parser `parseInlineBold` (79-104),
* the inline-bold word-wrapper `renderInlineBold` (109-151),
* the pagination helpers `addNewPage` / `checkPageOverflow` (223-237),
* the section renderers making up `generatePDF` (240-679), including the
  four-petal diamond bullet (411-452) and the ghost-markdown emissions.

Modelling conventions:

* JavaScript numbers are modelled as `ℚ` (all arithmetic in the engine is
  on decimal literals; no float-rounding-sensitive comparison occurs in
  the verified properties).
* JavaScript strings are `String` except inside the inline markup parser
  and word wrapper, where character-level scanning is modelled on
  `List Char`.
* The jsPDF backend (`doc`) is external: its drawing calls are recorded
  as a stream of `Ev` primitives, and its measuring functions
  (`getTextWidth`, `splitTextToSize`) are parameters of the renderers.
* `Ev.text` carries a `ghost` flag that is `true` exactly at the seven
  call sites the source marks with a `// Ghost markdown` / `// Ghost tag`
  comment (the ATS marker emissions); it is part of the instrumentation,
  not of the backend call.
* Every invocation of `checkPageOverflow` made by the section renderers
  is additionally logged as a `Ev.check` instrumentation event, so that
  call-ordering properties can be stated on the stream.
* Asynchronous asset loading happens before composition; the two images
  possibly loaded by `loadImageAsBase64` are passed in as
  `Option String` parameters (`null` ↦ `none`).
-/

/-- Conversion constant `PT_TO_MM = 25.4 / 72` (source line 20). -/
def PT_TO_MM : ℚ := (254/10) / 72

/-- Conversion constant `PX_TO_MM = 25.4 / 96` (source line 21). -/
def PX_TO_MM : ℚ := (254/10) / 96

/-- An RGB colour triple (JS arrays `[r, g, b]`). -/
structure Color where
  r : ℕ
  g : ℕ
  b : ℕ
deriving DecidableEq, Repr

/-- `theme.spacing` map (pixel units). `sectionMarginBottom` is only
present in the creative themes; themes without it get `0` here. -/
structure Spacing where
  headerBottomMargin : ℚ
  h1MarginBottom : ℚ
  subHeaderMarginBottom : ℚ
  h2MarginTop : ℚ
  h2MarginBottom : ℚ
  h3MarginTop : ℚ
  jobHeaderMarginBottom : ℚ
  ulMarginTop : ℚ
  ulMarginBottom : ℚ
  liMarginBottom : ℚ
  sectionMarginBottom : ℚ
deriving DecidableEq, Repr

/-- `theme.fonts` map (point units). -/
structure Fonts where
  h1 : ℚ
  subHeader : ℚ
  h2 : ℚ
  h3 : ℚ
  li : ℚ
  body : ℚ
deriving DecidableEq, Repr

/-- `theme.lineHeights` map (unitless multipliers). -/
structure LineHeights where
  li : ℚ
  body : ℚ
deriving DecidableEq, Repr

/-- `theme.colors` map.  `prefixGreen`, `prefixGray` and `bulletColor`
are only present in some themes (`undefined` ↦ `none`; the source reads
them with `||`-fallbacks). -/
structure Colors where
  bg : Color
  name : Color
  role : Color
  heading : Color
  text : Color
  prefixGreen : Option Color
  prefixGray : Option Color
  bulletColor : Option Color
deriving DecidableEq, Repr

/-- `theme.prefixes` map; the empty string is falsy in the source's
`if (theme.prefixes.…)` guards. -/
structure Prefixes where
  h1 : String
  subHeader : String
  h2 : String
  h3 : String
  jobMeta : String
  bullet : String
deriving DecidableEq, Repr

/-- Geometry part of `theme.images` (the two path fields are only used
by the asset loader, which is outside the composition phase). -/
structure ImagesCfg where
  headerBarHeight : ℚ
  sectionBarWidth : ℚ
  sectionBarHeight : ℚ
  sectionBarOffset : ℚ
deriving DecidableEq, Repr

/-- A theme object (§3 of the spec; the theme files under `src/themes`). -/
structure Theme where
  name : String
  margin : ℚ
  spacing : Spacing
  fonts : Fonts
  lineHeights : LineHeights
  colors : Colors
  prefixes : Prefixes
  images : Option ImagesCfg
deriving DecidableEq, Repr

/-- `px(theme, value)` (source lines 24-26): pixel units to mm. -/
def px (_theme : Theme) (value : ℚ) : ℚ :=
  value * PX_TO_MM

/-- `pt(theme, value)` (source lines 28-30): point units to mm. -/
def pt (_theme : Theme) (value : ℚ) : ℚ :=
  value * PT_TO_MM

/-- `lineHeight(theme, fontSize, lh)` (source lines 32-34): vertical
advance for one wrapped line. -/
def lineHeight (_theme : Theme) (fontSize lh : ℚ) : ℚ :=
  fontSize * lh * PT_TO_MM

/-! ## The primitive stream -/

/-- One backend call recorded by the engine (§3 DrawPrimitive), plus the
`check` instrumentation event logged at each `checkPageOverflow` call.
`text` carries the ghost-markdown instrumentation flag described in the
module docstring; `align` is `true` for `{ align: 'right' }`. -/
inductive Ev where
  | setFontSize (size : ℚ)
  | setFont (family weight : String)
  | setTextColor (c : Color)
  | setFillColor (c : Color)
  | setDrawColor (c : Color)
  | setLineWidth (w : ℚ)
  | text (ghost : Bool) (s : String) (x y : ℚ) (align : Bool)
  | textLines (lines : List String) (x y : ℚ)
  | line (x1 y1 x2 y2 : ℚ)
  | rect (x y w h : ℚ) (fill : Bool)
  | triangle (x1 y1 x2 y2 x3 y3 : ℚ) (fill : Bool)
  | addImage (img : String) (x y w h : ℚ)
  | addPage
  | check (required : ℚ)
deriving DecidableEq, Repr

/-- A4 page width in mm (source line 203). -/
def pageWidth : ℚ := 210

/-- A4 page height in mm (source line 204). -/
def pageHeight : ℚ := 297

/-- Cursor state owned by the pagination logic: the vertical position
`y` (source line 207) and the current page index (the page count the
backend maintains across `doc.addPage()` calls). -/
structure PState where
  y : ℚ
  pageIndex : ℕ
deriving DecidableEq, Repr

/-- `addNewPage()` (source lines 223-228): emit an AddPage, re-emit the
full-page background fill and reset the cursor to the top margin. -/
def addNewPage (bg : Color) (margin : ℚ) (st : PState) : PState × List Ev :=
  (⟨margin, st.pageIndex + 1⟩,
    [Ev.addPage, Ev.setFillColor bg, Ev.rect 0 0 pageWidth pageHeight true])

/-- `checkPageOverflow(requiredSpace)` (source lines 231-237): break the
page iff `y + requiredSpace > pageHeight - margin`, returning whether a
break happened. -/
def checkPageOverflow (bg : Color) (margin requiredSpace : ℚ) (st : PState) :
    Bool × PState × List Ev :=
  if st.y + requiredSpace > pageHeight - margin then
    (true, addNewPage bg margin st)
  else
    (false, st, [])

/-- `checkPageOverflow` as invoked by the section renderers (result
discarded), with the call itself logged as a `Ev.check` event. -/
def checkT (bg : Color) (margin requiredSpace : ℚ) (st : PState) : PState × List Ev :=
  let r := checkPageOverflow bg margin requiredSpace st
  (r.2.1, Ev.check requiredSpace :: r.2.2)

/-! ## Inline markup parser (`parseInlineBold`, source lines 79-104) -/

/-- One `{ text, bold }` segment. -/
structure Seg where
  text : List Char
  bold : Bool
deriving DecidableEq, Repr

/-- The scan loop of `parseInlineBold`: `current` is the accumulated
buffer, `inBold` the emphasis flag, and the third argument the remaining
input. On a `**` delimiter the nonempty buffer is flushed and the flag
toggled; all other characters accumulate. -/
def parseGo : List Char → Bool → List Char → List Seg
  | current, inBold, [] =>
      if current = [] then [] else [⟨current, inBold⟩]
  | current, inBold, '*' :: '*' :: rest =>
      (if current = [] then [] else [⟨current, inBold⟩]) ++ parseGo [] (!inBold) rest
  | current, inBold, c :: rest =>
      parseGo (current ++ [c]) inBold rest

/-- `parseInlineBold(text)` (source lines 79-104). -/
def parseInlineBold (text : List Char) : List Seg :=
  parseGo [] false text

/-- Concatenation of the `text` fields of a segment list. -/
def segTexts (segs : List Seg) : List Char :=
  (segs.map Seg.text).flatten

/-- The input with every `**` delimiter removed by the same left-to-right
greedy scan the parser performs (the spec's "input string with delimiters
removed"). -/
def removeDelims : List Char → List Char
  | [] => []
  | '*' :: '*' :: rest => removeDelims rest
  | c :: rest => c :: removeDelims rest

/-- Number of `**` delimiter tokens consumed by the greedy scan. -/
def countDelims : List Char → ℕ
  | [] => 0
  | '*' :: '*' :: rest => countDelims rest + 1
  | _ :: rest => countDelims rest

/-- The buffer the scan holds at end of input (the text after the last
consumed delimiter token), given the buffer it starts from. -/
def scanBuf : List Char → List Char → List Char
  | current, [] => current
  | _, '*' :: '*' :: rest => scanBuf [] rest
  | current, c :: rest => scanBuf (current ++ [c]) rest

/-- The emphasis flag active at end of input, given the starting flag. -/
def finalFlag : Bool → List Char → Bool
  | b, [] => b
  | b, '*' :: '*' :: rest => finalFlag (!b) rest
  | b, _ :: rest => finalFlag b rest

/-! ## Inline-bold word wrapper (`renderInlineBold`, source lines 109-151) -/

/-- JavaScript `text.split(' ')`: split on single spaces, keeping empty
fragments (`''.split(' ') === ['']`). -/
def splitSpace : List Char → List (List Char)
  | [] => [[]]
  | ' ' :: rest => [] :: splitSpace rest
  | c :: rest =>
      match splitSpace rest with
      | [] => [[c]]
      | w :: ws => (c :: w) :: ws

/-- One `doc.text` call made by `renderInlineBold`, together with the
text colour set by the `doc.setTextColor` call immediately preceding it
(`marker = true` for the background-coloured `'**'` emissions). -/
structure TPlace where
  marker : Bool
  s : List Char
  color : Color
  x : ℚ
  y : ℚ
deriving DecidableEq, Repr

/-- The body of the `words.forEach` loop of `renderInlineBold` (source
lines 119-147) for one word: re-append the trailing space unless last in
its segment, measure, wrap when the word would overrun the right edge on
a non-fresh line, then place markers and word. The accumulator is
`(currentX, currentY, output so far)`. -/
def flowWord (th : Theme) (w : Bool → List Char → ℚ) (x rightEdge : ℚ)
    (bold isFirst isLast : Bool) (word : List Char)
    (acc : ℚ × ℚ × List TPlace) : ℚ × ℚ × List TPlace :=
  let textToRender := if isLast then word else word ++ [' ']
  let textWidth := w bold textToRender
  let cx := acc.1
  let cy := acc.2.1
  let moved : ℚ × ℚ :=
    if cx + textWidth > rightEdge ∧ cx > x then
      (x, cy + lineHeight th th.fonts.li th.lineHeights.li)
    else
      (cx, cy)
  let out := acc.2.2
    ++ (if bold ∧ isFirst then [⟨true, ['*', '*'], th.colors.bg, moved.1, moved.2⟩] else [])
    ++ [⟨false, textToRender, th.colors.text, moved.1, moved.2⟩]
    ++ (if bold ∧ isLast then
          [⟨true, ['*', '*'], th.colors.bg, moved.1 + textWidth, moved.2⟩] else [])
  (moved.1 + textWidth, moved.2, out)

/-- The `words.forEach` loop: the first word of a segment has `idx = 0`
(`isFirst`), the last has `idx = words.length - 1` (`isLast`). -/
def flowWords (th : Theme) (w : Bool → List Char → ℚ) (x rightEdge : ℚ)
    (bold : Bool) (isFirst : Bool) :
    List (List Char) → ℚ × ℚ × List TPlace → ℚ × ℚ × List TPlace
  | [], acc => acc
  | [word], acc => flowWord th w x rightEdge bold isFirst true word acc
  | word :: rest, acc =>
      flowWords th w x rightEdge bold false rest
        (flowWord th w x rightEdge bold isFirst false word acc)

/-- The `segments.forEach` body: split a segment into words and flow
them. -/
def flowSeg (th : Theme) (w : Bool → List Char → ℚ) (x rightEdge : ℚ)
    (acc : ℚ × ℚ × List TPlace) (seg : Seg) : ℚ × ℚ × List TPlace :=
  flowWords th w x rightEdge seg.bold true (splitSpace seg.text) acc

/-- `renderInlineBold(doc, text, x, y, theme, maxWidth, pageWidth,
margin, fontFamily)` (source lines 109-151): parse, then greedily flow
the words of each segment against `rightEdge = pageWidth - margin`.
`w` is the backend's `doc.getTextWidth` in the current (bold or normal)
font. Returns the emitted placements and the final `currentY`
(`maxWidth` is accepted and unused, exactly as in the source). -/
def renderInlineBold (th : Theme) (w : Bool → List Char → ℚ)
    (text : List Char) (x y _maxWidth pageWidth margin : ℚ) :
    List TPlace × ℚ :=
  let segments := parseInlineBold text
  let rightEdge := pageWidth - margin
  let r := segments.foldl (flowSeg th w x rightEdge) (x, y, [])
  (r.2.2, r.2.1)

/-! ## Diamond bullet (`generatePDF`, source lines 411-452) -/

/-- A 2-D point. -/
structure Pnt where
  x : ℚ
  y : ℚ
deriving DecidableEq, Repr

/-- The four 4-point petal outlines `topPoints`, `rightPoints`,
`bottomPoints`, `leftPoints` (source lines 420-446). -/
def diamondPetals (cx cy size : ℚ) : List (List Pnt) :=
  [ [⟨cx, cy - size⟩, ⟨cx - size * (3/10), cy - size * (3/10)⟩,
     ⟨cx, cy⟩, ⟨cx + size * (3/10), cy - size * (3/10)⟩],
    [⟨cx + size, cy⟩, ⟨cx + size * (3/10), cy - size * (3/10)⟩,
     ⟨cx, cy⟩, ⟨cx + size * (3/10), cy + size * (3/10)⟩],
    [⟨cx, cy + size⟩, ⟨cx + size * (3/10), cy + size * (3/10)⟩,
     ⟨cx, cy⟩, ⟨cx - size * (3/10), cy + size * (3/10)⟩],
    [⟨cx - size, cy⟩, ⟨cx - size * (3/10), cy + size * (3/10)⟩,
     ⟨cx, cy⟩, ⟨cx - size * (3/10), cy - size * (3/10)⟩] ]

/-- Each petal drawn as the two filled triangles
`(petal[0], petal[1], petal[2])` and `(petal[0], petal[3], petal[2])`
(source lines 449-452). -/
def diamondTriangles (cx cy size : ℚ) : List (Pnt × Pnt × Pnt) :=
  (diamondPetals cx cy size).flatMap fun petal =>
    match petal with
    | [p0, p1, p2, p3] => [(p0, p1, p2), (p0, p3, p2)]
    | _ => []

/-- The `doc.triangle(…, 'F')` events for the diamond bullet. -/
def diamondEvents (cx cy size : ℚ) : List Ev :=
  (diamondTriangles cx cy size).map fun t =>
    Ev.triangle t.1.x t.1.y t.2.1.x t.2.1.y t.2.2.x t.2.2.y true

/-! ## Document model (§3) -/

/-- `Role{title?, period?, bullets}`; absent/empty-string fields are
falsy in the source's guards and modelled as `none`. -/
structure Role where
  title : Option String
  period : Option String
  bullets : List String
deriving DecidableEq, Repr

/-- `Job{company?, roles}`. -/
structure Job where
  company : Option String
  roles : List Role
deriving DecidableEq, Repr

/-- A section object from `formData.sections`, tagged by its `type`
field (`'header' | 'summary' | 'section' | 'experience'`; the generic
`'section'` variant is named `sect` because `section` is a Lean
keyword). -/
inductive Sec where
  | header (name : String) (contact : Option String)
  | summary (text : String)
  | sect (title : String) (bullets : List String)
  | experience (title : String) (jobs : List Job)
deriving DecidableEq, Repr

/-- The `themeFonts` table (source lines 67-74). -/
def themeFonts (name : String) : Option String :=
  if name = "Modern Professional" then some "Inter"
  else if name = "Classic Minimalist" then some "Inter"
  else if name = "Compact Executive" then some "JetBrainsMono"
  else if name = "Terminal/Hacker" then some "JetBrainsMono"
  else if name = "Creative Designer" then some "Inter"
  else if name = "Creative Designer 2" then some "Inter"
  else none

/-- Everything `generatePDF` closes over while rendering sections: the
theme, the resolved font family, the backend's measuring functions
(`doc.getTextWidth` and `doc.splitTextToSize`), and the two image
payloads loaded before composition (`null` ↦ `none`). -/
structure Ctx where
  th : Theme
  fontFamily : String
  w : String → ℚ
  split : String → ℚ → List String
  headerBarImage : Option String
  sectionBarImage : Option String

/-! ## Section renderers (the `formData.sections.forEach` body,
source lines 240-679).  Each renderer takes the cursor state and
returns the new cursor state together with the list of events it
emits. -/

/-- `drawCompactSectionBox(doc, text, x, y, theme, fontFamily,
pageWidth, margin)` (source lines 156-174); `text`, `x` and
`fontFamily` are accepted and unused, as in the source. -/
def drawCompactSectionBox (_text : String) (_x : ℚ) (th : Theme) (y : ℚ)
    (_fontFamily : String) (margin : ℚ) : List Ev :=
  if th.name = "Compact Executive" then
    let fontSize := pt th th.fonts.h2
    let textHeight := fontSize * (7/10)
    let padding : ℚ := 1
    let barY := y - textHeight - padding
    let barHeight := textHeight + padding * 2
    [Ev.setFillColor ⟨230, 231, 235⟩,
     Ev.rect margin barY (pageWidth - 2 * margin) barHeight true,
     Ev.setDrawColor ⟨0, 0, 0⟩, Ev.setLineWidth (1/2),
     Ev.line margin barY margin (barY + barHeight)]
  else []

/-- The header branch (source lines 241-328). -/
def renderHeader (ctx : Ctx) (name : String) (contact : Option String)
    (st : PState) : PState × List Ev :=
  let th := ctx.th
  let margin := th.margin
  let bg := th.colors.bg
  let y := st.y
  let e1 := [Ev.setFontSize th.fonts.h1, Ev.setFont ctx.fontFamily "bold",
             Ev.setTextColor bg, Ev.text true "# " margin y false]
  let nameX := if th.prefixes.h1 ≠ "" then margin + ctx.w th.prefixes.h1 else margin
  let e2 :=
    if th.prefixes.h1 ≠ "" then
      [Ev.setFontSize 10,
       Ev.setTextColor (th.colors.prefixGreen.getD th.colors.heading),
       Ev.text false th.prefixes.h1 margin y false,
       Ev.setFontSize th.fonts.h1]
    else []
  let e3 :=
    Ev.setTextColor th.colors.name ::
      (if th.name = "Classic Minimalist" then
        let nameText := name.toUpper
        let nameWidth := ctx.w nameText
        let centerX := (pageWidth - nameWidth) / 2
        [Ev.text false nameText centerX y false]
      else
        [Ev.text false name nameX y false])
  let y := y + pt th th.fonts.h1 + px th th.spacing.h1MarginBottom
  let contactRes : ℚ × List Ev :=
    match contact with
    | none => (y, [])
    | some contactStr =>
      let eA := [Ev.setFontSize th.fonts.subHeader, Ev.setFont ctx.fontFamily "normal",
                 Ev.setTextColor bg, Ev.text true "**Contact:** " margin y false]
      let contactX :=
        if th.prefixes.subHeader ≠ "" then margin + ctx.w th.prefixes.subHeader else margin
      let eB :=
        if th.prefixes.subHeader ≠ "" then
          [Ev.setTextColor (th.colors.prefixGreen.getD th.colors.heading),
           Ev.text false th.prefixes.subHeader margin y false]
        else []
      let eC := [Ev.setTextColor th.colors.role, Ev.text false contactStr contactX y false]
      let y := y + pt th th.fonts.subHeader
      let imgRes : ℚ × List Ev :=
        match ctx.headerBarImage, th.images with
        | some img, some icfg =>
            let barWidth := pageWidth - 2 * margin
            let barHeight := icfg.headerBarHeight
            (y + barHeight + 2, [Ev.addImage img margin y barWidth barHeight])
        | _, _ => (y, [])
      (imgRes.1 + px th th.spacing.subHeaderMarginBottom, eA ++ eB ++ eC ++ imgRes.2)
  let y := contactRes.1
  let e5 :=
    if th.name = "Classic Minimalist" then
      [Ev.setDrawColor ⟨0, 0, 0⟩, Ev.setLineWidth (3/2),
       Ev.line margin y (pageWidth - margin) y]
    else []
  let y := if th.name = "Classic Minimalist" then y + 4 else y
  let e6 :=
    if th.name = "Compact Executive" then
      [Ev.setDrawColor ⟨0, 0, 0⟩, Ev.setLineWidth (1/2),
       Ev.line margin y (pageWidth - margin) y]
    else []
  let y := if th.name = "Compact Executive" then y + 6 else y
  (⟨y, st.pageIndex⟩, e1 ++ e2 ++ e3 ++ contactRes.2 ++ e5 ++ e6)

/-- The summary branch (source lines 330-341). -/
def renderSummary (ctx : Ctx) (text : String) (st : PState) : PState × List Ev :=
  let th := ctx.th
  let margin := th.margin
  let c := checkT th.colors.bg margin 30 st
  let y := c.1.y
  let maxWidth := pageWidth - 2 * margin
  let summaryLines := ctx.split text maxWidth
  let e := [Ev.setFontSize th.fonts.body, Ev.setFont ctx.fontFamily "normal",
            Ev.setTextColor th.colors.text, Ev.textLines summaryLines margin y]
  let y := y + (summaryLines.length : ℚ) * lineHeight th th.fonts.body th.lineHeights.body
             + px th th.spacing.h2MarginTop
  (⟨y, c.1.pageIndex⟩, c.2 ++ e)

/-- One bullet of a bullet list (the `section.content.bullets.forEach`
body, source lines 394-477; the `role.bullets.forEach` body at lines
592-671 is the same code repeated verbatim in the source). -/
def renderBullet (ctx : Ctx) (bullet : String) (st : PState) : PState × List Ev :=
  let th := ctx.th
  let margin := th.margin
  let bg := th.colors.bg
  let c := checkT bg margin 15 st
  let y := c.1.y
  let maxWidth := pageWidth - 2 * margin - 10
  let eGhost := [Ev.setTextColor bg, Ev.text true "- " margin y false]
  let bulletChar := th.prefixes.bullet
  let bulletColor :=
    ((th.colors.bulletColor.orElse fun _ => th.colors.prefixGreen).getD th.colors.text)
  let eColor := [Ev.setTextColor bulletColor, Ev.setFillColor bulletColor]
  let eShape :=
    if th.name = "Creative Designer" then
      let cx := margin + 6
      let cy := y - 1
      let size : ℚ := 9/10
      Ev.setFillColor bulletColor :: diamondEvents cx cy size
    else if th.name = "Creative Designer 2" then
      [Ev.triangle (margin + 5) (y - 3/2) (margin + 5) (y - 1/2) (margin + 13/2) (y - 1) true]
    else
      [Ev.setTextColor bulletColor, Ev.text false (bulletChar ++ " ") (margin + 5) y false]
  let bulletLines := ctx.split bullet maxWidth
  let eText := [Ev.setFont ctx.fontFamily "normal", Ev.setTextColor th.colors.text,
                Ev.textLines bulletLines (margin + 10) y]
  let y := y + (bulletLines.length : ℚ) * lineHeight th th.fonts.li th.lineHeights.li
             + px th th.spacing.liMarginBottom
  (⟨y, c.1.pageIndex⟩, c.2 ++ eGhost ++ eColor ++ eShape ++ eText)

/-- `bullets.forEach(bullet => …)`. -/
def renderBullets (ctx : Ctx) : List String → PState → PState × List Ev
  | [], st => (st, [])
  | b :: rest, st =>
      let r1 := renderBullet ctx b st
      let r2 := renderBullets ctx rest r1.1
      (r2.1, r1.2 ++ r2.2)

/-- The creative-theme section bar (source lines 350-359 and 486-495). -/
def sectionBarEvents (ctx : Ctx) (y : ℚ) : List Ev :=
  let th := ctx.th
  match ctx.sectionBarImage, th.images with
  | some img, some icfg =>
      let barX := th.margin + icfg.sectionBarOffset
      let barWidth := icfg.sectionBarWidth
      let barHeight := icfg.sectionBarHeight
      let fontSize := pt th th.fonts.h2
      let capHeight := fontSize * (7/10)
      let capCenter := y - capHeight / 2
      let barY := capCenter - barHeight / 2
      [Ev.addImage img barX barY barWidth barHeight]
  | _, _ => []

/-- The generic section branch (source lines 343-477). -/
def renderSection (ctx : Ctx) (title : String) (bullets : List String)
    (st : PState) : PState × List Ev :=
  let th := ctx.th
  let margin := th.margin
  let bg := th.colors.bg
  let c := checkT bg margin 30 st
  let y := c.1.y + px th th.spacing.h2MarginTop
  let eBar := sectionBarEvents ctx y
  let eHead := [Ev.setFontSize th.fonts.h2, Ev.setFont ctx.fontFamily "bold",
                Ev.setTextColor bg, Ev.text true "## " margin y false]
  let sectionX := if th.prefixes.h2 ≠ "" then margin + ctx.w th.prefixes.h2 else margin
  let ePrefix :=
    if th.prefixes.h2 ≠ "" then
      [Ev.setTextColor (th.colors.prefixGreen.getD th.colors.heading),
       Ev.text false th.prefixes.h2 margin y false]
    else []
  let sectionText := title.toUpper
  let eBox := drawCompactSectionBox sectionText sectionX th y ctx.fontFamily margin
  let textX := if th.name = "Compact Executive" then sectionX + 2 else sectionX
  let textColor : Color :=
    if th.name = "Compact Executive" then ⟨37, 99, 235⟩ else th.colors.heading
  let eTitle := [Ev.setTextColor textColor, Ev.text false sectionText textX y false]
  let y := y + pt th th.fonts.h2 + px th th.spacing.h2MarginBottom
  let r := renderBullets ctx bullets ⟨y, c.1.pageIndex⟩
  (r.1, c.2 ++ eBar ++ eHead ++ ePrefix ++ eBox ++ eTitle ++ r.2)

/-- One role (the `job.roles.forEach` body, source lines 557-674). -/
def renderRole (ctx : Ctx) (role : Role) (st : PState) : PState × List Ev :=
  let th := ctx.th
  let margin := th.margin
  let bg := th.colors.bg
  let c := checkT bg margin 30 st
  let y := c.1.y
  let hasMeta := role.title.isSome || role.period.isSome
  let eMeta :=
    if hasMeta then
      let eHead := [Ev.setFontSize th.fonts.subHeader, Ev.setFont ctx.fontFamily "normal"]
      let metaX :=
        if th.prefixes.jobMeta ≠ "" then margin + ctx.w th.prefixes.jobMeta else margin
      let ePrefix :=
        if th.prefixes.jobMeta ≠ "" then
          [Ev.setTextColor (th.colors.prefixGray.getD th.colors.role),
           Ev.text false th.prefixes.jobMeta margin y false]
        else []
      let eTitle :=
        match role.title with
        | some t => [Ev.setTextColor th.colors.role, Ev.text false t metaX y false]
        | none => []
      let ePeriod :=
        match role.period with
        | some p => [Ev.setTextColor th.colors.role,
                     Ev.text false p (pageWidth - margin) y true]
        | none => []
      eHead ++ ePrefix ++ eTitle ++ ePeriod
    else []
  let y :=
    if hasMeta then
      y + pt th th.fonts.subHeader + px th th.spacing.jobHeaderMarginBottom
    else y
  let r := renderBullets ctx role.bullets ⟨y, c.1.pageIndex⟩
  (⟨r.1.y + px th th.spacing.ulMarginBottom, r.1.pageIndex⟩, c.2 ++ eMeta ++ r.2)

/-- `job.roles.forEach(…)`. -/
def renderRoles (ctx : Ctx) : List Role → PState → PState × List Ev
  | [], st => (st, [])
  | role :: rest, st =>
      let r1 := renderRole ctx role st
      let r2 := renderRoles ctx rest r1.1
      (r2.1, r1.2 ++ r2.2)

/-- One job block (the `section.content.jobs.forEach` body, source
lines 526-677). -/
def renderJob (ctx : Ctx) (job : Job) (st : PState) : PState × List Ev :=
  let th := ctx.th
  let margin := th.margin
  let bg := th.colors.bg
  let c := checkT bg margin 40 st
  let companyRes : ℚ × List Ev :=
    match job.company with
    | none => (c.1.y, [])
    | some company =>
      let y := c.1.y + px th th.spacing.h3MarginTop
      let eHead := [Ev.setFontSize th.fonts.h3, Ev.setFont ctx.fontFamily "bold",
                    Ev.setTextColor bg, Ev.text true "### " margin y false]
      let companyX :=
        if th.prefixes.h3 ≠ "" then margin + ctx.w th.prefixes.h3 else margin
      let ePrefix :=
        if th.prefixes.h3 ≠ "" then
          [Ev.setTextColor (th.colors.prefixGray.getD th.colors.role),
           Ev.text false th.prefixes.h3 margin y false]
        else []
      let eCompany := [Ev.setTextColor th.colors.text, Ev.text false company companyX y false]
      (y + pt th th.fonts.h3 + px th th.spacing.jobHeaderMarginBottom,
       eHead ++ ePrefix ++ eCompany)
  let r := renderRoles ctx job.roles ⟨companyRes.1, c.1.pageIndex⟩
  (⟨r.1.y + px th th.spacing.sectionMarginBottom / 2, r.1.pageIndex⟩,
   c.2 ++ companyRes.2 ++ r.2)

/-- `section.content.jobs.forEach(…)`. -/
def renderJobs (ctx : Ctx) : List Job → PState → PState × List Ev
  | [], st => (st, [])
  | job :: rest, st =>
      let r1 := renderJob ctx job st
      let r2 := renderJobs ctx rest r1.1
      (r2.1, r1.2 ++ r2.2)

/-- The experience branch (source lines 479-677).  Note that here the
`'## '` ghost tag is emitted *before* the `setFontSize`/`setFont`
calls, unlike in the generic section branch. -/
def renderExperience (ctx : Ctx) (title : String) (jobs : List Job)
    (st : PState) : PState × List Ev :=
  let th := ctx.th
  let margin := th.margin
  let bg := th.colors.bg
  let c := checkT bg margin 30 st
  let y := c.1.y + px th th.spacing.h2MarginTop
  let eBar := sectionBarEvents ctx y
  let eGhost := [Ev.setTextColor bg, Ev.text true "## " margin y false]
  let eFont := [Ev.setFontSize th.fonts.h2, Ev.setFont ctx.fontFamily "bold"]
  let sectionX := if th.prefixes.h2 ≠ "" then margin + ctx.w th.prefixes.h2 else margin
  let ePrefix :=
    if th.prefixes.h2 ≠ "" then
      [Ev.setTextColor (th.colors.prefixGreen.getD th.colors.heading),
       Ev.text false th.prefixes.h2 margin y false]
    else []
  let sectionTitle := title.toUpper
  let eBox := drawCompactSectionBox sectionTitle sectionX th y ctx.fontFamily margin
  let textX := if th.name = "Compact Executive" then sectionX + 2 else sectionX
  let textColor : Color :=
    if th.name = "Compact Executive" then ⟨37, 99, 235⟩ else th.colors.heading
  let eTitle := [Ev.setTextColor textColor, Ev.text false sectionTitle textX y false]
  let y := y + pt th th.fonts.h2 + px th th.spacing.h2MarginBottom
  let r := renderJobs ctx jobs ⟨y, c.1.pageIndex⟩
  (r.1, c.2 ++ eBar ++ eGhost ++ eFont ++ ePrefix ++ eBox ++ eTitle ++ r.2)

/-- Dispatch on `section.type`. -/
def renderSec (ctx : Ctx) (s : Sec) (st : PState) : PState × List Ev :=
  match s with
  | Sec.header name contact => renderHeader ctx name contact st
  | Sec.summary text => renderSummary ctx text st
  | Sec.sect title bullets => renderSection ctx title bullets st
  | Sec.experience title jobs => renderExperience ctx title jobs st

/-- `formData.sections.forEach(section => …)`. -/
def renderSecs (ctx : Ctx) : List Sec → PState → PState × List Ev
  | [], st => (st, [])
  | s :: rest, st =>
      let r1 := renderSec ctx s st
      let r2 := renderSecs ctx rest r1.1
      (r2.1, r1.2 ++ r2.2)

/-- `generatePDF(theme, formData)` (source lines 181-683), from the
start of the composition phase (font/image loading has completed; the
image payloads are the `Option String` arguments): paint the page
background, then render the sections in order from the initial cursor
`y = margin` on page 0.  Returns the final cursor state and the
emitted primitive stream. -/
def generatePDF (th : Theme) (w : String → ℚ) (split : String → ℚ → List String)
    (headerBarImage sectionBarImage : Option String) (sections : List Sec) :
    PState × List Ev :=
  let fontFamily := (themeFonts th.name).getD "Inter"
  let ctx : Ctx := ⟨th, fontFamily, w, split, headerBarImage, sectionBarImage⟩
  let bg := th.colors.bg
  let pre := [Ev.setFillColor bg, Ev.rect 0 0 pageWidth pageHeight true]
  let r := renderSecs ctx sections ⟨th.margin, 0⟩
  (r.1, pre ++ r.2)

/-! ## Concrete themes (from `src/themes/…`), used as witnesses.
Themes whose `spacing` map lacks `sectionMarginBottom` get `0` for that
field (it is only read in the experience branch). -/

/-- `theme-modern.js` (Modern Professional). -/
def modernTheme : Theme where
  name := "Modern Professional"
  margin := 15
  spacing := ⟨12, 4, 12, 12, 6, 8, 4, 4, 10, 3, 0⟩
  fonts := ⟨18, 15/2, 10, 9, 17/2, 9⟩
  lineHeights := ⟨3/2, 7/5⟩
  colors :=
    { bg := ⟨255, 255, 255⟩, name := ⟨31, 41, 55⟩, role := ⟨100, 116, 139⟩
      heading := ⟨37, 99, 235⟩, text := ⟨71, 85, 105⟩
      prefixGreen := none, prefixGray := none, bulletColor := none }
  prefixes := ⟨"", "", "", "", "", "•"⟩
  images := none

/-- `theme-terminal.js` (Terminal/Hacker). -/
def terminalTheme : Theme where
  name := "Terminal/Hacker"
  margin := 15
  spacing := ⟨12, 4, 12, 12, 6, 8, 4, 4, 10, 3, 0⟩
  fonts := ⟨16, 7, 9, 17/2, 17/2, 9⟩
  lineHeights := ⟨3/2, 7/5⟩
  colors :=
    { bg := ⟨13, 17, 23⟩, name := ⟨88, 166, 255⟩, role := ⟨139, 148, 158⟩
      heading := ⟨126, 231, 135⟩, text := ⟨201, 209, 217⟩
      prefixGreen := some ⟨126, 231, 135⟩, prefixGray := some ⟨139, 148, 158⟩
      bulletColor := none }
  prefixes := ⟨"$ whoami > ", "# ", "[>] ", "|-- ", "// ", "> "⟩
  images := none

/-- A constant-width stand-in for the backend's `getTextWidth`. -/
def wTest : String → ℚ := fun _ => 10

/-- A stand-in for the backend's `splitTextToSize` that never wraps. -/
def splitTest : String → ℚ → List String := fun s _ => [s]

/-! ## C6 — unit-conversion formulas and linearity -/

/-- Claim C6: the three unit conversions are the pure linear maps
`px(v) = v·25.4/96`, `pt(s) = s·25.4/72` and
`lineHeight(fs, lh) = fs·lh·25.4/72`; each satisfies `f(2x) = 2·f(x)`
for non-negative `x`, `pt 18 = 6.35` and `px 4 = 4·25.4/96`. -/
theorem C6_unit_conversions (t : Theme) (v fs lh x : ℚ) (_hx : 0 ≤ x) :
    px t v = v * ((254/10) / 96) ∧
    pt t v = v * ((254/10) / 72) ∧
    lineHeight t fs lh = fs * lh * ((254/10) / 72) ∧
    px t (2 * x) = 2 * px t x ∧
    pt t (2 * x) = 2 * pt t x ∧
    lineHeight t (2 * x) lh = 2 * lineHeight t x lh ∧
    pt t 18 = 635/100 ∧
    px t 4 = 4 * ((254/10) / 96) := by
  refine ⟨rfl, rfl, rfl, ?_, ?_, ?_, by norm_num [pt, PT_TO_MM], rfl⟩ <;>
    simp [px, pt, lineHeight] <;> ring

/-- Witness for C6 at the Modern Professional theme and `x = 3`. -/
theorem C6_unit_conversions_witness :
    pt modernTheme 18 = 635/100 ∧ px modernTheme (2 * 3) = 2 * px modernTheme 3 := by
  have h := C6_unit_conversions modernTheme 1 1 1 3 (by norm_num)
  exact ⟨h.2.2.2.2.2.2.1, h.2.2.2.1⟩

/-! ## C10 — the theme argument of the conversion helpers is inert -/

/-- Claim C10: the theme argument of `px`, `pt` and `lineHeight` is inert:
the results depend only on the numeric arguments. -/
theorem C10_theme_inert (t1 t2 : Theme) (v fs lh : ℚ) :
    px t1 v = px t2 v ∧ pt t1 v = pt t2 v ∧
    lineHeight t1 fs lh = lineHeight t2 fs lh :=
  ⟨rfl, rfl, rfl⟩

/-! ## C1 — `checkPageOverflow` (the spec's `ensureSpace`) -/

/-- Claim C1: for every cursor state and required value,
`checkPageOverflow(required)` breaks the page iff
`y + required > pageHeight - margin`; on a break it emits an AddPage,
re-emits the full-page background fill, resets `y` to the margin,
increments the page index by exactly one and returns `true`; otherwise
it leaves the state unchanged, emits nothing and returns `false`. -/
theorem C1_ensureSpace (bg : Color) (margin required : ℚ) (st : PState) :
    ((checkPageOverflow bg margin required st).1 = true ↔
      st.y + required > pageHeight - margin) ∧
    ((checkPageOverflow bg margin required st).1 = true →
      (checkPageOverflow bg margin required st).2.1.y = margin ∧
      (checkPageOverflow bg margin required st).2.1.pageIndex = st.pageIndex + 1 ∧
      (checkPageOverflow bg margin required st).2.2 =
        [Ev.addPage, Ev.setFillColor bg, Ev.rect 0 0 pageWidth pageHeight true]) ∧
    ((checkPageOverflow bg margin required st).1 = false →
      (checkPageOverflow bg margin required st).2.1 = st ∧
      (checkPageOverflow bg margin required st).2.2 = []) := by
  unfold checkPageOverflow addNewPage
  split_ifs with h <;> simp [h]

/-- Witness for C1: at `margin = 15`, `y = 290`, `required = 10` the
condition `290 + 10 > 297 - 15` holds and the break happens. -/
theorem C1_ensureSpace_witness :
    (checkPageOverflow ⟨255, 255, 255⟩ 15 10 ⟨290, 0⟩).1 = true ∧
    (checkPageOverflow ⟨255, 255, 255⟩ 15 10 ⟨290, 0⟩).2.1.y = 15 ∧
    (checkPageOverflow ⟨255, 255, 255⟩ 15 10 ⟨290, 0⟩).2.1.pageIndex = 1 := by
  have h := C1_ensureSpace ⟨255, 255, 255⟩ 15 10 ⟨290, 0⟩
  have hb : (checkPageOverflow ⟨255, 255, 255⟩ 15 10 ⟨290, 0⟩).1 = true :=
    h.1.mpr (by norm_num [pageHeight])
  exact ⟨hb, (h.2.1 hb).1, (h.2.1 hb).2.1⟩

/-! ## C5 / C9 — the inline markup parser -/

theorem segTexts_append (a b : List Seg) :
    segTexts (a ++ b) = segTexts a ++ segTexts b := by
  simp [segTexts]

theorem segTexts_cons (a : Seg) (l : List Seg) :
    segTexts (a :: l) = a.text ++ segTexts l := by
  simp [segTexts]

theorem segTexts_nil : segTexts [] = [] := by simp [segTexts]

/-- The scan is lossless: the concatenated segment texts are the
starting buffer followed by the input with delimiters stripped. -/
theorem parseGo_texts (cur : List Char) (b : Bool) (s : List Char) :
    segTexts (parseGo cur b s) = cur ++ removeDelims s := by
  induction cur, b, s using parseGo.induct with
  | case1 b => simp [parseGo, removeDelims, segTexts]
  | case2 cur b h => simp [parseGo, removeDelims, segTexts, h]
  | case3 cur b rest ih =>
      by_cases h : cur = [] <;>
        simp [parseGo, removeDelims, segTexts_append, segTexts_cons, segTexts_nil, h, ih]
  | case4 cur b c rest h ih =>
      simp only [parseGo, h, ih, removeDelims]
      simp

/-- Claim C5: on input with an even number of `**` delimiters (and in fact
on every input), concatenating the segment texts of `parseInlineBold`
reproduces the input with every `**` occurrence removed; the empty input
parses to the empty segment sequence. -/
theorem C5_lossless :
    (∀ s : List Char, countDelims s % 2 = 0 →
      segTexts (parseInlineBold s) = removeDelims s) ∧
    parseInlineBold [] = [] := by
  constructor
  · intro s _
    simpa using parseGo_texts [] false s
  · rfl

/-- Witness for C5 at the input `"ab**cd**e"` (two delimiter pairs). -/
theorem C5_lossless_witness :
    countDelims ['a', 'b', '*', '*', 'c', 'd', '*', '*', 'e'] % 2 = 0 ∧
    segTexts (parseInlineBold ['a', 'b', '*', '*', 'c', 'd', '*', '*', 'e']) =
      removeDelims ['a', 'b', '*', '*', 'c', 'd', '*', '*', 'e'] :=
  ⟨by decide, C5_lossless.1 _ (by decide)⟩

/-- The final segment of the parse carries the buffer and flag the scan
holds at end of input, whenever that buffer is nonempty. -/
theorem parseGo_last (cur : List Char) (b : Bool) (s : List Char)
    (h : scanBuf cur s ≠ []) :
    ∃ init, parseGo cur b s = init ++ [⟨scanBuf cur s, finalFlag b s⟩] := by
  induction cur, b, s using parseGo.induct with
  | case1 b => exact absurd rfl h
  | case2 cur b hne =>
      exact ⟨[], by simp [parseGo, scanBuf, finalFlag, hne]⟩
  | case3 cur b rest ih =>
      have h' : scanBuf [] rest ≠ [] := by
        simpa [scanBuf] using h
      obtain ⟨init, hinit⟩ := ih h'
      refine ⟨(if cur = [] then [] else [⟨cur, b⟩]) ++ init, ?_⟩
      simp only [parseGo, scanBuf, finalFlag, hinit, List.append_assoc]
  | case4 cur b c rest hc ih =>
      have h' : scanBuf (cur ++ [c]) rest ≠ [] := by
        simp only [scanBuf, hc] at h
        · exact h
      obtain ⟨init, hinit⟩ := ih h'
      refine ⟨init, ?_⟩
      simp only [parseGo, scanBuf, finalFlag, hc, hinit]

/-- The flag at end of input toggles once per consumed delimiter. -/
theorem finalFlag_parity (b : Bool) (s : List Char) :
    finalFlag b s = (b.xor (decide (countDelims s % 2 = 1))) := by
  induction b, s using finalFlag.induct with
  | case1 b => simp [finalFlag, countDelims]
  | case2 b rest ih =>
      simp only [finalFlag, countDelims, ih]
      rcases b <;> rcases h2 : decide ((countDelims rest + 1) % 2 = 1) <;>
        rcases h3 : decide (countDelims rest % 2 = 1) <;>
          simp_all [Nat.add_mod]
  | case3 b c rest hc ih =>
      simp only [finalFlag, countDelims, hc, ih]

/-- Claim C9: on input with an odd number of `**` delimiters and a
nonempty trailing buffer, `parseInlineBold` still flushes that buffer
as a final segment carrying the toggled (active-at-end-of-string)
emphasis flag `true` — the trailing text is neither dropped nor an
error. -/
theorem C9_unterminated (s : List Char) (hodd : countDelims s % 2 = 1)
    (hne : scanBuf [] s ≠ []) :
    ∃ init, parseInlineBold s = init ++ [⟨scanBuf [] s, true⟩] := by
  have h := parseGo_last [] false s hne
  rwa [finalFlag_parity, Bool.false_xor, decide_eq_true_eq.mpr hodd] at h

/-- Witness for C9 at the input `"a**b"` (one unterminated delimiter):
the trailing `"b"` is flushed as a bold segment. -/
theorem C9_unterminated_witness :
    countDelims ['a', '*', '*', 'b'] % 2 = 1 ∧
    ∃ init, parseInlineBold ['a', '*', '*', 'b'] = init ++ [⟨['b'], true⟩] := by
  refine ⟨by decide, ?_⟩
  have h := C9_unterminated ['a', '*', '*', 'b'] (by decide) (by decide)
  simpa using h

/-! ## C7 — the four-petal diamond bullet -/

/-- Rotation by 90° about `(cx, cy)`: the offset `(dx, dy)` from the
center maps to `(-dy, dx)` (the rotation taking the top tip
`(cx, cy - size)` to the right tip `(cx + size, cy)`). -/
def rot90 (cx cy : ℚ) (p : Pnt) : Pnt :=
  ⟨cx - (p.y - cy), cy + (p.x - cx)⟩

/-- `rot90` applied to the three vertices of a triangle. -/
def rotTri (cx cy : ℚ) (t : Pnt × Pnt × Pnt) : Pnt × Pnt × Pnt :=
  (rot90 cx cy t.1, rot90 cx cy t.2.1, rot90 cx cy t.2.2)

/-- Claim C7: the diamond bullet is eight filled triangles, two per petal;
the top petal's triangle A is `{(cx, cy-size), (cx-0.3·size, cy-0.3·size),
(cx, cy)}` and its triangle B is `{(cx, cy-size), (cx+0.3·size,
cy-0.3·size), (cx, cy)}`, and the right, bottom and left petals are that
pair rotated about `(cx, cy)` by 90°, 180° and 270°; at
`size = 0.9, cx = 21, cy = 10` triangle A has vertices `(21, 9.1),
(20.73, 9.73), (21, 10)`. -/
theorem C7_diamond (cx cy size : ℚ) :
    (diamondTriangles cx cy size).length = 8 ∧
    diamondTriangles cx cy size =
      [(⟨cx, cy - size⟩, ⟨cx - (3/10) * size, cy - (3/10) * size⟩, ⟨cx, cy⟩),
       (⟨cx, cy - size⟩, ⟨cx + (3/10) * size, cy - (3/10) * size⟩, ⟨cx, cy⟩),
       rotTri cx cy (⟨cx, cy - size⟩, ⟨cx - (3/10) * size, cy - (3/10) * size⟩, ⟨cx, cy⟩),
       rotTri cx cy (⟨cx, cy - size⟩, ⟨cx + (3/10) * size, cy - (3/10) * size⟩, ⟨cx, cy⟩),
       rotTri cx cy (rotTri cx cy
         (⟨cx, cy - size⟩, ⟨cx - (3/10) * size, cy - (3/10) * size⟩, ⟨cx, cy⟩)),
       rotTri cx cy (rotTri cx cy
         (⟨cx, cy - size⟩, ⟨cx + (3/10) * size, cy - (3/10) * size⟩, ⟨cx, cy⟩)),
       rotTri cx cy (rotTri cx cy (rotTri cx cy
         (⟨cx, cy - size⟩, ⟨cx - (3/10) * size, cy - (3/10) * size⟩, ⟨cx, cy⟩))),
       rotTri cx cy (rotTri cx cy (rotTri cx cy
         (⟨cx, cy - size⟩, ⟨cx + (3/10) * size, cy - (3/10) * size⟩, ⟨cx, cy⟩)))] ∧
    (diamondTriangles 21 10 (9/10)).head? =
      some (⟨21, 91/10⟩, ⟨2073/100, 973/100⟩, ⟨21, 10⟩) := by
  refine ⟨by simp [diamondTriangles, diamondPetals], ?_,
    by norm_num [diamondTriangles, diamondPetals]⟩
  simp only [diamondTriangles, diamondPetals, rotTri, rot90, List.flatMap_cons,
    List.flatMap_nil, List.append_nil, List.cons_append, List.nil_append,
    List.cons.injEq, Prod.mk.injEq, Pnt.mk.injEq, and_true]
  norm_num
  constructor <;> ring

/-! ## C4 — the inline-bold word wrapper never overruns the right edge -/

/-- Single-step analysis of `flowWord`: the word (and a leading marker)
is placed at some `px_` with `x ≤ px_ ≤ rightEdge`, and `currentX`
advances to `px_ + textWidth`. -/
theorem flowWord_step (th : Theme) (w : Bool → List Char → ℚ) (x rightEdge : ℚ)
    (bold isFirst isLast : Bool) (word : List Char) (cx cy : ℚ) (out : List TPlace)
    (hw : ∀ b s, 0 ≤ w b s) (hx : x ≤ rightEdge) (hcx : x ≤ cx) :
    ∃ px_ py_, x ≤ px_ ∧ px_ ≤ rightEdge ∧
      flowWord th w x rightEdge bold isFirst isLast word (cx, cy, out) =
        (px_ + w bold (if isLast then word else word ++ [' ']), py_,
         out ++ (if bold ∧ isFirst then
                  [⟨true, ['*', '*'], th.colors.bg, px_, py_⟩] else [])
             ++ [⟨false, (if isLast then word else word ++ [' ']),
                  th.colors.text, px_, py_⟩]
             ++ (if bold ∧ isLast then
                  [⟨true, ['*', '*'], th.colors.bg,
                    px_ + w bold (if isLast then word else word ++ [' ']), py_⟩]
                 else [])) := by
  have htw : 0 ≤ w bold (if isLast then word else word ++ [' ']) := hw _ _
  by_cases h : cx + w bold (if isLast then word else word ++ [' ']) > rightEdge ∧ cx > x
  · refine ⟨x, cy + lineHeight th th.fonts.li th.lineHeights.li, le_refl x, hx, ?_⟩
    simp only [flowWord, if_pos h]
  · have hcxr : cx ≤ rightEdge := by
      rcases not_and_or.mp h with h1 | h1
      · push_neg at h1; linarith
      · push_neg at h1; linarith
    refine ⟨cx, cy, hcx, hcxr, ?_⟩
    simp only [flowWord, if_neg h]

/-- Invariant transported through one `flowWord` step. -/
theorem flowWord_inv (th : Theme) (w : Bool → List Char → ℚ) (x rightEdge : ℚ)
    (bold isFirst isLast : Bool) (word : List Char) (acc : ℚ × ℚ × List TPlace)
    (hw : ∀ b s, 0 ≤ w b s) (hx : x ≤ rightEdge) (hcx : x ≤ acc.1) :
    x ≤ (flowWord th w x rightEdge bold isFirst isLast word acc).1 ∧
    ∀ p ∈ (flowWord th w x rightEdge bold isFirst isLast word acc).2.2,
      p ∈ acc.2.2 ∨ p.marker = true ∨ p.x ≤ rightEdge := by
  obtain ⟨cx, cy, out⟩ := acc
  obtain ⟨px_, py_, hxp, hpr, heq⟩ :=
    flowWord_step th w x rightEdge bold isFirst isLast word cx cy out hw hx hcx
  rw [heq]
  have htw : 0 ≤ w bold (if isLast then word else word ++ [' ']) := hw _ _
  constructor
  · simpa using le_trans hxp (by linarith)
  · intro p hp
    simp only [List.mem_append, List.mem_singleton] at hp
    rcases hp with ((hp | hp) | hp) | hp
    · exact Or.inl hp
    · rcases Bool.eq_false_or_eq_true bold with hb | hb <;>
        rcases Bool.eq_false_or_eq_true isFirst with hf | hf <;>
          simp_all
    · subst hp; exact Or.inr (Or.inr hpr)
    · rcases Bool.eq_false_or_eq_true bold with hb | hb <;>
        rcases Bool.eq_false_or_eq_true isLast with hf | hf <;>
          simp_all

/-- Invariant transported through the word loop of one segment. -/
theorem flowWords_inv (th : Theme) (w : Bool → List Char → ℚ) (x rightEdge : ℚ)
    (bold : Bool) (isFirst : Bool) (words : List (List Char))
    (acc : ℚ × ℚ × List TPlace)
    (hw : ∀ b s, 0 ≤ w b s) (hx : x ≤ rightEdge) (hcx : x ≤ acc.1) :
    x ≤ (flowWords th w x rightEdge bold isFirst words acc).1 ∧
    ∀ p ∈ (flowWords th w x rightEdge bold isFirst words acc).2.2,
      p ∈ acc.2.2 ∨ p.marker = true ∨ p.x ≤ rightEdge := by
  induction isFirst, words, acc using flowWords.induct th w x rightEdge bold with
  | case1 isFirst acc =>
      exact ⟨hcx, fun p hp => Or.inl hp⟩
  | case2 isFirst word acc =>
      exact flowWord_inv th w x rightEdge bold isFirst true word acc hw hx hcx
  | case3 isFirst word rest acc hne ih =>
      have h1 := flowWord_inv th w x rightEdge bold isFirst false word acc hw hx hcx
      have h2 := ih (h1.1)
      refine ⟨by simpa [flowWords, hne] using h2.1, ?_⟩
      intro p hp
      have hp' := h2.2 p (by
        revert hp
        obtain _ | ⟨a, _ | ⟨b, l⟩⟩ := rest
        · exact absurd rfl hne
        · exact fun hp => by simpa [flowWords] using hp
        · exact fun hp => by simpa [flowWords] using hp)
      rcases hp' with hp' | hp'
      · rcases h1.2 p hp' with h | h
        · exact Or.inl h
        · exact Or.inr h
      · exact Or.inr hp'

/-- Invariant transported through the segment loop. -/
theorem flowSegs_inv (th : Theme) (w : Bool → List Char → ℚ) (x rightEdge : ℚ)
    (segs : List Seg) (acc : ℚ × ℚ × List TPlace)
    (hw : ∀ b s, 0 ≤ w b s) (hx : x ≤ rightEdge) (hcx : x ≤ acc.1)
    (hout : ∀ p ∈ acc.2.2, p.marker = true ∨ p.x ≤ rightEdge) :
    ∀ p ∈ (segs.foldl (flowSeg th w x rightEdge) acc).2.2,
      p.marker = true ∨ p.x ≤ rightEdge := by
  induction segs generalizing acc with
  | nil => simpa using hout
  | cons seg rest ih =>
      have h1 := flowWords_inv th w x rightEdge seg.bold true (splitSpace seg.text)
        acc hw hx hcx
      refine ih (flowSeg th w x rightEdge acc seg) h1.1 ?_
      intro p hp
      rcases h1.2 p hp with h | h
      · exact hout p h
      · exact h

/-- Claim C4: for every segment sequence, start position with
`x ≤ pageWidth - margin` and (non-negative) backend width function,
`renderInlineBold` never places a word whose start x-coordinate exceeds
the right margin `pageWidth - margin` (in particular the documented
single-oversized-word exception also keeps the *start* coordinate
inside the margin); and a line break — `y` advanced by one
`lineHeight(fonts.li, lineHeights.li)` advance and `x` reset to the
start column — occurs before a word exactly when the word would cross
the right edge (`currentX + textWidth > rightEdge`) and the current
line already contains content (`currentX > x`). -/
theorem C4_wordwrap (th : Theme) (w : Bool → List Char → ℚ) (text : List Char)
    (x y maxWidth pw margin : ℚ)
    (hw : ∀ b s, 0 ≤ w b s) (hx : x ≤ pw - margin) :
    (∀ p ∈ (renderInlineBold th w text x y maxWidth pw margin).1,
      p.marker = false → p.x ≤ pw - margin) ∧
    (∀ (bold isFirst isLast : Bool) (word : List Char) (cx cy : ℚ)
       (out : List TPlace),
      (cx + w bold (if isLast then word else word ++ [' ']) > pw - margin ∧ cx > x →
        flowWord th w x (pw - margin) bold isFirst isLast word (cx, cy, out) =
          (x + w bold (if isLast then word else word ++ [' ']),
           cy + lineHeight th th.fonts.li th.lineHeights.li,
           out ++ (if bold ∧ isFirst then
                    [⟨true, ['*', '*'], th.colors.bg, x,
                      cy + lineHeight th th.fonts.li th.lineHeights.li⟩] else [])
               ++ [⟨false, (if isLast then word else word ++ [' ']), th.colors.text,
                    x, cy + lineHeight th th.fonts.li th.lineHeights.li⟩]
               ++ (if bold ∧ isLast then
                    [⟨true, ['*', '*'], th.colors.bg,
                      x + w bold (if isLast then word else word ++ [' ']),
                      cy + lineHeight th th.fonts.li th.lineHeights.li⟩] else []))) ∧
      (¬(cx + w bold (if isLast then word else word ++ [' ']) > pw - margin ∧ cx > x) →
        flowWord th w x (pw - margin) bold isFirst isLast word (cx, cy, out) =
          (cx + w bold (if isLast then word else word ++ [' ']), cy,
           out ++ (if bold ∧ isFirst then
                    [⟨true, ['*', '*'], th.colors.bg, cx, cy⟩] else [])
               ++ [⟨false, (if isLast then word else word ++ [' ']), th.colors.text,
                    cx, cy⟩]
               ++ (if bold ∧ isLast then
                    [⟨true, ['*', '*'], th.colors.bg,
                      cx + w bold (if isLast then word else word ++ [' ']), cy⟩]
                   else [])))) := by
  constructor
  · intro p hp hmark
    have h := flowSegs_inv th w x (pw - margin) (parseInlineBold text) (x, y, [])
      hw hx (le_refl x) (by simp)
    have hp' : p ∈ ((parseInlineBold text).foldl
        (flowSeg th w x (pw - margin)) (x, y, [])).2.2 := by
      simpa [renderInlineBold] using hp
    rcases h p hp' with h | h
    · rw [hmark] at h; exact absurd h (by simp)
    · exact h
  · intro bold isFirst isLast word cx cy out
    constructor
    · intro h
      simp only [flowWord, if_pos h]
    · intro h
      simp only [flowWord, if_neg h]

/-- Witness for C4 at a concrete run: two words of width 100 on a line
of width `210 - 2·15 = 180` starting at `x = 15` (the second word wraps);
every non-marker placement starts at or before `x = 195`. -/
theorem C4_wordwrap_witness :
    ((renderInlineBold modernTheme (fun _ _ => 100) ['a', ' ', 'b']
        15 20 180 210 15).1.all
      (fun p => p.marker || decide (p.x ≤ 210 - 15))) = true := by
  have h := (C4_wordwrap modernTheme (fun _ _ => 100) ['a', ' ', 'b'] 15 20 180 210 15
    (fun _ _ => by norm_num) (by norm_num)).1
  rw [List.all_eq_true]
  intro p hp
  rcases hb : p.marker with _ | _
  · simpa using h p hp (by simpa using hb)
  · simp

/-! ## C2 / C8 — ghost markers: position, ordering and colour

`ghostsCovered` states that every ghost emission is followed, later in
the stream, by a visible (non-ghost) text emission at the same
y-coordinate; `bulletGhostsOffset` states that every `"- "` ghost at
`(x, y)` is followed by the bullet body text placed at `(x + 10, y)`;
`colorOK` states that the text colour in effect (the last
`setTextColor` before the event) at every ghost emission is the page
background colour. -/

/-- `e` is a non-ghost text emission at y-coordinate `gy`. -/
def visibleAt (gy : ℚ) (e : Ev) : Prop :=
  match e with
  | Ev.text false _ _ y _ => y = gy
  | Ev.textLines _ _ y => y = gy
  | _ => False

/-- Obligation of the head event against the remainder of the stream:
a ghost marker must be followed by visible text at the same y. -/
def ghostObligation (e : Ev) (rest : List Ev) : Prop :=
  match e with
  | Ev.text true _ _ gy _ => ∃ e' ∈ rest, visibleAt gy e'
  | _ => True

/-- Every ghost emission in the stream is covered by later visible
text at the same y-coordinate. -/
def ghostsCovered : List Ev → Prop
  | [] => True
  | e :: rest => ghostObligation e rest ∧ ghostsCovered rest

/-- Obligation of the head event: a `"- "` ghost at `(gx, gy)` must be
followed by a `textLines` emission at `(gx + 10, gy)`. -/
def bulletObligation (e : Ev) (rest : List Ev) : Prop :=
  match e with
  | Ev.text true s gx gy _ =>
      s = "- " → ∃ ls, Ev.textLines ls (gx + 10) gy ∈ rest
  | _ => True

/-- Every `"- "` ghost is followed by the bullet body text 10 units to
its right on the same line. -/
def bulletGhostsOffset : List Ev → Prop
  | [] => True
  | e :: rest => bulletObligation e rest ∧ bulletGhostsOffset rest

/-- `e` is a ghost text emission. -/
def isGhostText (e : Ev) : Prop :=
  match e with
  | Ev.text true _ _ _ _ => True
  | _ => False

/-- Text colour state after processing `e`. -/
def nextColor (cur : Option Color) (e : Ev) : Option Color :=
  match e with
  | Ev.setTextColor c => some c
  | _ => cur

/-- With `cur` the colour in effect on entry, every ghost emission in
the stream happens while the colour in effect is `bg`. -/
def colorOK (bg : Color) (cur : Option Color) : List Ev → Prop
  | [] => True
  | e :: rest => (isGhostText e → cur = some bg) ∧ colorOK bg (nextColor cur e) rest

/-- The three stream invariants bundled (colour quantified over every
entry state, so that the property composes under concatenation). -/
def GoodTail (bg : Color) (evs : List Ev) : Prop :=
  ghostsCovered evs ∧ bulletGhostsOffset evs ∧ ∀ cur, colorOK bg cur evs

theorem ghostObligation_mono (e : Ev) (rest more : List Ev)
    (h : ghostObligation e rest) : ghostObligation e (rest ++ more) := by
  cases e with
  | text ghost s x y al =>
      cases ghost with
      | true =>
          obtain ⟨e', he', hv⟩ := h
          exact ⟨e', List.mem_append_left _ he', hv⟩
      | false => trivial
  | _ => trivial

theorem bulletObligation_mono (e : Ev) (rest more : List Ev)
    (h : bulletObligation e rest) : bulletObligation e (rest ++ more) := by
  cases e with
  | text ghost s x y al =>
      cases ghost with
      | true =>
          intro hs
          obtain ⟨ls, hls⟩ := h hs
          exact ⟨ls, List.mem_append_left _ hls⟩
      | false => trivial
  | _ => trivial

theorem ghostsCovered_append (a b : List Ev)
    (ha : ghostsCovered a) (hb : ghostsCovered b) : ghostsCovered (a ++ b) := by
  induction a with
  | nil => simpa using hb
  | cons e rest ih =>
      exact ⟨ghostObligation_mono e rest b ha.1, ih ha.2⟩

theorem bulletGhostsOffset_append (a b : List Ev)
    (ha : bulletGhostsOffset a) (hb : bulletGhostsOffset b) :
    bulletGhostsOffset (a ++ b) := by
  induction a with
  | nil => simpa using hb
  | cons e rest ih =>
      exact ⟨bulletObligation_mono e rest b ha.1, ih ha.2⟩

theorem colorOK_append (bg : Color) (cur : Option Color) (a b : List Ev)
    (ha : colorOK bg cur a) (hb : ∀ cur', colorOK bg cur' b) :
    colorOK bg cur (a ++ b) := by
  induction a generalizing cur with
  | nil => simpa using hb cur
  | cons e rest ih =>
      exact ⟨ha.1, ih (nextColor cur e) ha.2⟩

theorem GoodTail_append (bg : Color) (a b : List Ev)
    (ha : GoodTail bg a) (hb : GoodTail bg b) : GoodTail bg (a ++ b) :=
  ⟨ghostsCovered_append a b ha.1 hb.1,
   bulletGhostsOffset_append a b ha.2.1 hb.2.1,
   fun cur => colorOK_append bg cur a b (ha.2.2 cur) hb.2.2⟩

theorem GoodTail_nil (bg : Color) : GoodTail bg [] :=
  ⟨trivial, trivial, fun _ => trivial⟩

theorem checkT_good (bg : Color) (margin r : ℚ) (st : PState) :
    GoodTail bg (checkT bg margin r st).2 := by
  simp only [checkT, checkPageOverflow, addNewPage]
  split_ifs <;>
    simp [GoodTail, ghostsCovered, ghostObligation, bulletGhostsOffset,
      bulletObligation, colorOK, isGhostText, nextColor]

theorem renderBullet_good (ctx : Ctx) (bullet : String) (st : PState) :
    GoodTail ctx.th.colors.bg (renderBullet ctx bullet st).2 := by
  have hc := checkT_good ctx.th.colors.bg ctx.th.margin 15 st
  simp only [renderBullet, List.append_assoc]
  refine GoodTail_append _ _ _ hc ?_
  split_ifs with h1 h2 <;>
    simp [GoodTail, ghostsCovered, ghostObligation, bulletGhostsOffset,
      bulletObligation, colorOK, isGhostText, nextColor, visibleAt,
      diamondEvents, diamondTriangles, diamondPetals]

theorem renderBullets_good (ctx : Ctx) (bullets : List String) :
    ∀ st, GoodTail ctx.th.colors.bg (renderBullets ctx bullets st).2 := by
  induction bullets with
  | nil => intro st; exact GoodTail_nil _
  | cons b rest ih =>
      intro st
      simp only [renderBullets]
      exact GoodTail_append _ _ _ (renderBullet_good ctx b st) (ih _)

set_option maxHeartbeats 2000000 in
theorem renderHeader_good (ctx : Ctx) (name : String) (contact : Option String)
    (st : PState) :
    GoodTail ctx.th.colors.bg (renderHeader ctx name contact st).2 := by
  simp only [renderHeader]
  rcases contact with _ | contactStr <;>
    rcases ctx.headerBarImage with _ | img <;>
      rcases ctx.th.images with _ | icfg <;>
        split_ifs <;>
          simp [GoodTail, ghostsCovered, ghostObligation, bulletGhostsOffset,
            bulletObligation, colorOK, isGhostText, nextColor, visibleAt]

theorem renderSummary_good (ctx : Ctx) (text : String) (st : PState) :
    GoodTail ctx.th.colors.bg (renderSummary ctx text st).2 := by
  have hc := checkT_good ctx.th.colors.bg ctx.th.margin 30 st
  simp only [renderSummary, List.append_assoc]
  refine GoodTail_append _ _ _ hc ?_
  simp [GoodTail, ghostsCovered, ghostObligation, bulletGhostsOffset,
    bulletObligation, colorOK, isGhostText, nextColor, visibleAt]

set_option maxHeartbeats 1000000 in
theorem renderSection_good (ctx : Ctx) (title : String) (bullets : List String)
    (st : PState) :
    GoodTail ctx.th.colors.bg (renderSection ctx title bullets st).2 := by
  simp only [renderSection]
  refine GoodTail_append _ _ _ ?_ (renderBullets_good ctx bullets _)
  simp only [checkT, checkPageOverflow, addNewPage, sectionBarEvents,
    drawCompactSectionBox]
  rcases ctx.sectionBarImage with _ | img <;>
    rcases ctx.th.images with _ | icfg <;>
      split_ifs <;>
        simp [GoodTail, ghostsCovered, ghostObligation, bulletGhostsOffset,
          bulletObligation, colorOK, isGhostText, nextColor, visibleAt]

set_option maxHeartbeats 1000000 in
theorem renderRole_good (ctx : Ctx) (role : Role) (st : PState) :
    GoodTail ctx.th.colors.bg (renderRole ctx role st).2 := by
  simp only [renderRole]
  refine GoodTail_append _ _ _ ?_ (renderBullets_good ctx role.bullets _)
  simp only [checkT, checkPageOverflow, addNewPage]
  rcases role with ⟨_ | rtitle, _ | rperiod, rbullets⟩ <;>
    split_ifs <;>
      simp [GoodTail, ghostsCovered, ghostObligation, bulletGhostsOffset,
        bulletObligation, colorOK, isGhostText, nextColor, visibleAt]

theorem renderRoles_good (ctx : Ctx) (roles : List Role) :
    ∀ st, GoodTail ctx.th.colors.bg (renderRoles ctx roles st).2 := by
  induction roles with
  | nil => intro st; exact GoodTail_nil _
  | cons role rest ih =>
      intro st
      simp only [renderRoles]
      exact GoodTail_append _ _ _ (renderRole_good ctx role st) (ih _)

set_option maxHeartbeats 1000000 in
theorem renderJob_good (ctx : Ctx) (job : Job) (st : PState) :
    GoodTail ctx.th.colors.bg (renderJob ctx job st).2 := by
  simp only [renderJob]
  refine GoodTail_append _ _ _ ?_ (renderRoles_good ctx job.roles _)
  simp only [checkT, checkPageOverflow, addNewPage]
  rcases job with ⟨_ | company, roles⟩ <;>
    split_ifs <;>
      simp [GoodTail, ghostsCovered, ghostObligation, bulletGhostsOffset,
        bulletObligation, colorOK, isGhostText, nextColor, visibleAt]

theorem renderJobs_good (ctx : Ctx) (jobs : List Job) :
    ∀ st, GoodTail ctx.th.colors.bg (renderJobs ctx jobs st).2 := by
  induction jobs with
  | nil => intro st; exact GoodTail_nil _
  | cons job rest ih =>
      intro st
      simp only [renderJobs]
      exact GoodTail_append _ _ _ (renderJob_good ctx job st) (ih _)

set_option maxHeartbeats 1000000 in
theorem renderExperience_good (ctx : Ctx) (title : String) (jobs : List Job)
    (st : PState) :
    GoodTail ctx.th.colors.bg (renderExperience ctx title jobs st).2 := by
  simp only [renderExperience]
  refine GoodTail_append _ _ _ ?_ (renderJobs_good ctx jobs _)
  simp only [checkT, checkPageOverflow, addNewPage, sectionBarEvents,
    drawCompactSectionBox]
  rcases ctx.sectionBarImage with _ | img <;>
    rcases ctx.th.images with _ | icfg <;>
      split_ifs <;>
        simp [GoodTail, ghostsCovered, ghostObligation, bulletGhostsOffset,
          bulletObligation, colorOK, isGhostText, nextColor, visibleAt]

theorem renderSec_good (ctx : Ctx) (s : Sec) (st : PState) :
    GoodTail ctx.th.colors.bg (renderSec ctx s st).2 := by
  cases s with
  | header name contact => exact renderHeader_good ctx name contact st
  | summary text => exact renderSummary_good ctx text st
  | sect title bullets => exact renderSection_good ctx title bullets st
  | experience title jobs => exact renderExperience_good ctx title jobs st

theorem renderSecs_good (ctx : Ctx) (sections : List Sec) :
    ∀ st, GoodTail ctx.th.colors.bg (renderSecs ctx sections st).2 := by
  induction sections with
  | nil => intro st; exact GoodTail_nil _
  | cons s rest ih =>
      intro st
      simp only [renderSecs]
      exact GoodTail_append _ _ _ (renderSec_good ctx s st) (ih _)

theorem generatePDF_good (th : Theme) (w : String → ℚ)
    (split : String → ℚ → List String) (headerBarImage sectionBarImage : Option String)
    (sections : List Sec) :
    GoodTail th.colors.bg
      (generatePDF th w split headerBarImage sectionBarImage sections).2 := by
  simp only [generatePDF]
  refine GoodTail_append _ _ _ ?_
    (renderSecs_good ⟨th, (themeFonts th.name).getD "Inter", w, split,
      headerBarImage, sectionBarImage⟩ sections ⟨th.margin, 0⟩)
  simp [GoodTail, ghostsCovered, ghostObligation, bulletGhostsOffset,
    bulletObligation, colorOK, isGhostText, nextColor]

/-- The ghost text emissions of a stream: `(string, x, y)`. -/
def ghostTexts (evs : List Ev) : List (String × ℚ × ℚ) :=
  evs.filterMap fun e =>
    match e with
    | Ev.text true s gx gy _ => some (s, gx, gy)
    | _ => none

/-- The `textLines` emissions of a stream: `(lines, x, y)`. -/
def lineTexts (evs : List Ev) : List (List String × ℚ × ℚ) :=
  evs.filterMap fun e =>
    match e with
    | Ev.textLines ls lx ly => some (ls, lx, ly)
    | _ => none

/-- Claim C2 (counterexample): rendering the single section
`{type: 'section', title: "Skills", bullets: ["A"]}` under the Modern
Professional theme emits the `"- "` ghost marker at `x = margin = 15`,
while the visible bullet text `["A"]` — the only visible content of
that bullet — is placed at `x = margin + 10 = 25` (the bullet glyph
itself at `margin + 5`): the marker is *not* emitted at the same
`(x, y)` coordinates as the visible content it annotates. -/
theorem C2_counterexample :
    ghostTexts (generatePDF modernTheme wTest splitTest none none
        [Sec.sect "Skills" ["A"]]).2 =
      [("## ", 15, 727/40), ("- ", 15, 16769/720)] ∧
    lineTexts (generatePDF modernTheme wTest splitTest none none
        [Sec.sect "Skills" ["A"]]).2 =
      [(["A"], 25, 16769/720)] ∧
    (15 : ℚ) ≠ 25 := by
  refine ⟨?_, ?_, by norm_num⟩ <;>
    norm_num +decide [generatePDF, renderSecs, renderSec, renderSection, renderBullets,
      renderBullet, checkT, checkPageOverflow, addNewPage, sectionBarEvents,
      drawCompactSectionBox, ghostTexts, lineTexts, modernTheme, wTest, splitTest,
      px, pt, lineHeight, PX_TO_MM, PT_TO_MM, pageWidth, pageHeight, themeFonts,
      List.filterMap_cons, List.filterMap_nil]

/-- Claim C2 (amended): for every theme, backend and document, every
ghost marker is emitted strictly before a visible (non-ghost) text
emission at the same *y*-coordinate — the coordinates agree in y but
not in general in x — and every `"- "` bullet marker emitted at
`(x, y)` has the bullet's visible body text subsequently placed at
`(x + 10, y)`. -/
theorem C2_amended_ghost_positions (th : Theme) (w : String → ℚ)
    (split : String → ℚ → List String) (hImg sImg : Option String)
    (sections : List Sec) :
    ghostsCovered (generatePDF th w split hImg sImg sections).2 ∧
    bulletGhostsOffset (generatePDF th w split hImg sImg sections).2 :=
  ⟨(generatePDF_good th w split hImg sImg sections).1,
   (generatePDF_good th w split hImg sImg sections).2.1⟩

/-! ## C8 — marker ordering and marker colour -/

/-- Claim C8: in every emitted primitive stream, each ghost marker is
emitted strictly before the visible content it annotates (a later
non-ghost text emission on the same line), and the text colour in
effect at every ghost marker emission — whatever colour was in effect
when the section started — is the theme's background colour. -/
theorem C8_ghost_order_color (th : Theme) (w : String → ℚ)
    (split : String → ℚ → List String) (hImg sImg : Option String)
    (sections : List Sec) :
    ghostsCovered (generatePDF th w split hImg sImg sections).2 ∧
    ∀ cur, colorOK th.colors.bg cur (generatePDF th w split hImg sImg sections).2 :=
  ⟨(generatePDF_good th w split hImg sImg sections).1,
   (generatePDF_good th w split hImg sImg sections).2.2⟩

/-! ## C3 — which composers call `checkPageOverflow` before emitting -/

/-- The `Ev.check` instrumentation events of a stream (one per
`checkPageOverflow` invocation). -/
def checkEvents (evs : List Ev) : List Ev :=
  evs.filter fun e =>
    match e with
    | Ev.check _ => true
    | _ => false

/-- Claim C3 (counterexample): rendering the single section
`{type: 'header', name: "Jane Doe"}` under the Modern Professional
theme emits eight events — the two page-background primitives and six
header primitives, including the ghost tag and the visible name — and
*no* `checkPageOverflow` call at all: the header branch emits its
primitives without ever calling `ensureSpace`. -/
theorem C3_counterexample :
    checkEvents (generatePDF modernTheme wTest splitTest none none
        [Sec.header "Jane Doe" none]).2 = [] ∧
    (generatePDF modernTheme wTest splitTest none none
        [Sec.header "Jane Doe" none]).2.length = 8 := by
  constructor <;>
    norm_num +decide [generatePDF, renderSecs, renderSec, renderHeader, checkEvents,
      modernTheme, wTest, splitTest, pt, px, PT_TO_MM, PX_TO_MM, themeFonts,
      List.filter_cons, List.filter_nil]

set_option maxHeartbeats 1000000 in
/-- Claim C3 (amended): for every theme, backend state and cursor state,
the summary, generic-section and experience composers invoke
`checkPageOverflow` with the minimum estimate `30` as their very first
emitted event — before any primitive of the section — while the header
composer emits a nonempty primitive stream containing no
`checkPageOverflow` call at all. -/
theorem C3_amended (ctx : Ctx) (st : PState) :
    (∀ name contact, (renderHeader ctx name contact st).2 ≠ [] ∧
        ∀ r, Ev.check r ∉ (renderHeader ctx name contact st).2) ∧
    (∀ text, (renderSummary ctx text st).2.head? = some (Ev.check 30)) ∧
    (∀ title bullets,
      (renderSection ctx title bullets st).2.head? = some (Ev.check 30)) ∧
    (∀ title jobs,
      (renderExperience ctx title jobs st).2.head? = some (Ev.check 30)) := by
  refine ⟨fun name contact => ⟨?_, ?_⟩, fun text => ?_, fun title bullets => ?_,
    fun title jobs => ?_⟩
  · simp only [renderHeader]
    rcases contact with _ | contactStr <;> simp
  · intro r
    simp only [renderHeader]
    rcases contact with _ | contactStr <;>
      rcases ctx.headerBarImage with _ | img <;>
        rcases ctx.th.images with _ | icfg <;>
          split_ifs <;> simp
  · simp [renderSummary, checkT]
  · simp [renderSection, checkT]
  · simp [renderExperience, checkT]
